import Mathlib

/-!
Shallow embedding of the Tetris terminal game engine (`tetris.py`):
the `Tetromino` piece type with its rotation-frame catalog, the `Board`
grid with placement validation, piece commitment and line clearing, and
the `TetrisGame` orchestrator with scoring, levels and lifecycle.

Modelling conventions:
* Python `int` becomes `Int` (or `Nat` where the quantity is a count),
  Python `float` becomes `ℚ` (the only float arithmetic is the drop
  interval formula, modelled exactly over the rationals).
* The global random generator is made explicit: every operation that
  draws a random piece kind takes the drawn kind(s) as parameters.
* `time.time()` is made explicit: operations reading the clock take the
  current time as a `ℚ` parameter.
* Mutation becomes explicit state passing; methods that mutate and
  return a bool become functions returning a pair.
* Python list subscripts are modelled with `List.getD` / an explicit
  `pyset` helper; out-of-range accesses that would raise in Python are
  modelled as defaults / no-ops (they are proved unreachable for
  well-formed boards below).
-/

/-- The seven tetromino kinds: the keys of `Tetromino.SHAPES`. -/
inductive ShapeType where
  | I | O | T | S | Z | J | L
deriving DecidableEq, Repr

/-- The two color themes (`ColorTheme` enum). -/
inductive ColorTheme where
  | GREEN | AMBER
deriving DecidableEq, Repr

/-- A tetromino piece: kind, rotation state and board position
(`Tetromino.__init__` fields; the `shape` field is determined by `type`
and recovered via `Tetromino.SHAPES`). -/
structure Tetromino where
  type : ShapeType
  rotation : Nat
  x : Int
  y : Int
deriving DecidableEq, Repr

/-- The rotation-frame catalog `Tetromino.SHAPES`: for each kind, the
list of rotation frames, each frame a list of row strings where `'.'`
is empty and any other character is an occupied cell. -/
def Tetromino.SHAPES : ShapeType → List (List String)
  | ShapeType.I =>
      [[("...."), ("IIII"), ("...."), ("....")],
       [("..I."), ("..I."), ("..I."), ("..I.")],
       [("...."), ("...."), ("IIII"), ("....")],
       [(".I.."), (".I.."), (".I.."), (".I..")]]
  | ShapeType.O =>
      [[("OO"), ("OO")]]
  | ShapeType.T =>
      [[(".T."), ("TTT"), ("...")],
       [(".T."), (".TT"), (".T.")],
       [("..."), ("TTT"), (".T.")],
       [(".T."), ("TT."), (".T.")]]
  | ShapeType.S =>
      [[(".SS"), ("SS."), ("...")],
       [(".S."), (".SS"), ("..S")]]
  | ShapeType.Z =>
      [[("ZZ."), (".ZZ"), ("...")],
       [("..Z"), (".ZZ"), (".Z.")]]
  | ShapeType.J =>
      [[("J.."), ("JJJ"), ("...")],
       [(".JJ"), (".J."), (".J.")],
       [("..."), ("JJJ"), ("..J")],
       [(".J."), (".J."), ("JJ.")]]
  | ShapeType.L =>
      [[("..L"), ("LLL"), ("...")],
       [(".L."), (".L."), (".LL")],
       [("..."), ("LLL"), ("L..")],
       [("LL."), (".L."), (".L.")]]

/-- `Tetromino.__init__`: a fresh piece of the given kind, rotation 0,
at spawn position (column 4, row 0). -/
def Tetromino.init (shape_type : ShapeType) : Tetromino :=
  { type := shape_type, rotation := 0, x := 4, y := 0 }

/-- `Tetromino.get_current_shape`: the active frame, looked up at the
rotation index reduced modulo the frame count. -/
def Tetromino.get_current_shape (p : Tetromino) : List String :=
  (Tetromino.SHAPES p.type).getD (p.rotation % (Tetromino.SHAPES p.type).length) []

/-- `Tetromino.rotate`: a new piece with the same kind and position and
the rotation index advanced by one modulo the frame count (the Python
method builds a fresh instance; the original is not mutated). -/
def Tetromino.rotate (p : Tetromino) : Tetromino :=
  { type := p.type,
    rotation := (p.rotation + 1) % (Tetromino.SHAPES p.type).length,
    x := p.x, y := p.y }

/-- The game board (`Board.__init__`): fixed dimensions and a grid of
cells, `'.'` for empty, any other character for a placed block. -/
structure Board where
  width : Nat
  height : Nat
  grid : List (List Char)
deriving DecidableEq, Repr

/-- `Board.__init__`: a `height` by `width` grid of empty cells. -/
def Board.init (width height : Nat) : Board :=
  { width := width, height := height,
    grid := List.replicate height (List.replicate width '.') }

/-- `Board.is_valid_position`: true iff every occupied cell of the
piece's current frame, offset by `(dx, dy)`, lands in a column inside
`[0, width)`, a row below `height`, and — when its row is nonnegative —
on an empty grid cell. The grid read is guarded exactly as in the
source's short-circuited condition, so the `getD` defaults are never
relevant on a well-formed board (proved below). Purely a predicate. -/
def Board.is_valid_position (b : Board) (p : Tetromino) (dx dy : Int) : Bool :=
  let shape := p.get_current_shape
  (List.range shape.length).all fun row_idx =>
    let row := (shape.getD row_idx ("")).data
    (List.range row.length).all fun col_idx =>
      let cell := row.getD col_idx '.'
      if cell ≠ '.' then
        let new_x := p.x + (col_idx : Int) + dx
        let new_y := p.y + (row_idx : Int) + dy
        if new_x < 0 ∨ (b.width : Int) ≤ new_x ∨ (b.height : Int) ≤ new_y ∨
            (0 ≤ new_y ∧ (b.grid.getD new_y.toNat []).getD new_x.toNat ' ' ≠ '.') then
          false
        else
          true
      else
        true

/-- Python list assignment `l[i] = a`: negative indices wrap from the
end; an index out of range raises `IndexError` in Python and is modelled
as a no-op here (such writes are unreachable for validated placements). -/
def pyset {α : Type} (l : List α) (i : Int) (a : α) : List α :=
  if 0 ≤ i then
    if i < (l.length : Int) then l.set i.toNat a else l
  else if 0 ≤ i + (l.length : Int) then
    l.set (i + (l.length : Int)).toNat a
  else l

/-- `Board.place_piece`: write every occupied cell of the piece's
current frame whose row is nonnegative into the grid (rows below 0 are
silently skipped, as in the source). -/
def Board.place_piece (b : Board) (p : Tetromino) : Board :=
  let shape := p.get_current_shape
  { b with grid := (List.range shape.length).foldl (fun g row_idx =>
      let row := (shape.getD row_idx ("")).data
      (List.range row.length).foldl (fun g col_idx =>
        let cell := row.getD col_idx '.'
        if cell ≠ '.' then
          let x := p.x + (col_idx : Int)
          let y := p.y + (row_idx : Int)
          if 0 ≤ y then pyset g y (pyset (g.getD y.toNat []) x cell) else g
        else g) g) b.grid }

/-- The `while len(new_grid) < self.height` loop of `Board.clear_lines`
(structurally fuelled: each iteration grows the list by one, so
`height` iterations always suffice; proved exact in `padTopAux_eq`). -/
def padTopAux : Nat → List (List Char) → Nat → Nat → List (List Char)
  | 0, g, _, _ => g
  | fuel + 1, g, width, height =>
    if g.length < height then padTopAux fuel (List.replicate width '.' :: g) width height
    else g

/-- The `while len(new_grid) < self.height` loop of `Board.clear_lines`:
insert fresh empty rows at the top until the grid is `height` tall. -/
def padTop (g : List (List Char)) (width height : Nat) : List (List Char) :=
  padTopAux height g width height

/-- `Board.clear_lines`: keep the rows that still contain an empty cell
(in order), count the full rows, pad the top back to `height` with empty
rows, and return the new board together with the number of cleared
lines. -/
def Board.clear_lines (b : Board) : Board × Nat :=
  let step := b.grid.foldl
    (fun (acc : List (List Char) × Nat) row =>
      if '.' ∈ row then (acc.1 ++ [row], acc.2) else (acc.1, acc.2 + 1))
    ([], 0)
  ({ b with grid := padTop step.1 b.width b.height }, step.2)

/-- `Board.is_game_over`: some cell of the topmost row is occupied. -/
def Board.is_game_over (b : Board) : Bool :=
  (b.grid.headD []).any fun cell => cell ≠ '.'

/-- The full engine state (`TetrisGame.__init__` fields). `score` is a
Python `int`, modelled as `Int`; `level` and `lines_cleared` are counts;
the drop timing state is rational-valued. -/
structure TetrisGame where
  board : Board
  current_piece : Option Tetromino
  next_piece : Option Tetromino
  score : Int
  level : Nat
  lines_cleared : Nat
  paused : Bool
  game_over : Bool
  theme : ColorTheme
  last_drop_time : ℚ
  drop_interval : ℚ
deriving DecidableEq, Repr

namespace TetrisGame

/-- `TetrisGame.LINE_CLEAR_SCORES`: base scores per lines cleared. -/
def LINE_CLEAR_SCORES : List Int := [0, 40, 100, 300, 1200]

/-- `TetrisGame.HARD_DROP_POINTS`. -/
def HARD_DROP_POINTS : Int := 2

/-- `TetrisGame.SOFT_DROP_POINTS`. -/
def SOFT_DROP_POINTS : Int := 1

/-- `TetrisGame._calculate_score`: base score for the given number of
cleared lines, with bounds checking, times `level + 1`. -/
def calculate_score (g : TetrisGame) (lines_cleared : Int) : Int :=
  if lines_cleared < 0 ∨ (LINE_CLEAR_SCORES.length : Int) ≤ lines_cleared then 0
  else LINE_CLEAR_SCORES.getD lines_cleared.toNat 0 * ((g.level : Int) + 1)

/-- `TetrisGame.spawn_new_piece`: promote the next piece (drawing
`draw_if_none` first when there is none yet) to current, repositioned
to spawn column 4, row 0; draw `draw_next` as the new next piece; and
set the game-over flag when the repositioned piece fails validation. -/
def spawn_new_piece (g : TetrisGame) (draw_if_none draw_next : ShapeType) : TetrisGame :=
  let np := match g.next_piece with
    | none => Tetromino.init draw_if_none
    | some q => q
  let cur : Tetromino := { np with x := 4, y := 0 }
  let g1 : TetrisGame := { g with
    current_piece := some cur,
    next_piece := some (Tetromino.init draw_next) }
  if ¬ g1.board.is_valid_position cur 0 0 then { g1 with game_over := true } else g1

/-- `TetrisGame.move_piece`: move the current piece by `(dx, dy)` when
the offset validates; returns the new state with the success flag. -/
def move_piece (g : TetrisGame) (dx dy : Int) : TetrisGame × Bool :=
  match g.current_piece with
  | none => (g, false)
  | some p =>
    if g.board.is_valid_position p dx dy then
      ({ g with current_piece := some { p with x := p.x + dx, y := p.y + dy } }, true)
    else (g, false)

/-- `TetrisGame.rotate_piece`: replace the current piece by its rotated
candidate when the candidate validates at zero offset. -/
def rotate_piece (g : TetrisGame) : TetrisGame × Bool :=
  match g.current_piece with
  | none => (g, false)
  | some p =>
    let rotated := p.rotate
    if g.board.is_valid_position rotated 0 0 then
      ({ g with current_piece := some rotated }, true)
    else (g, false)

/-- The `while self.move_piece(0, 1)` loop of `TetrisGame.hard_drop`,
awarding `HARD_DROP_POINTS` per successful downward step. The Python
loop terminates because every frame has an occupied cell, whose row is
bounded by the board height on success; the recursion is fuelled with
enough steps for every state reachable in play. -/
def hardDropLoop : TetrisGame → Nat → TetrisGame
  | g, 0 => g
  | g, fuel + 1 =>
    let m := g.move_piece 0 1
    if m.2 then hardDropLoop { m.1 with score := m.1.score + HARD_DROP_POINTS } fuel
    else m.1

/-- `TetrisGame.lock_piece`: commit the current piece, clear lines, and
when lines were cleared update the line count, score (at the level held
before the lock), level and drop interval; finish by spawning. -/
def lock_piece (g : TetrisGame) (draw_if_none draw_next : ShapeType) : TetrisGame :=
  match g.current_piece with
  | none => g
  | some p =>
    let cleared := (g.board.place_piece p).clear_lines
    let lines := cleared.2
    let g1 : TetrisGame := { g with board := cleared.1 }
    let g2 : TetrisGame :=
      if 0 < lines then
        let newLevel := min 20 ((g1.lines_cleared + lines) / 10 + 1)
        { g1 with
          lines_cleared := g1.lines_cleared + lines,
          score := g1.score + g1.calculate_score (lines : Int),
          level := newLevel,
          drop_interval := max 0.05 (1.0 - ((newLevel : ℚ) - 1) * 0.05) }
      else g1
    g2.spawn_new_piece draw_if_none draw_next

/-- `TetrisGame.hard_drop`: drop to the bottom, then lock. -/
def hard_drop (g : TetrisGame) (draw_if_none draw_next : ShapeType) : TetrisGame :=
  match g.current_piece with
  | none => g
  | some _ => (g.hardDropLoop (g.board.height + 4)).lock_piece draw_if_none draw_next

/-- `TetrisGame.update`: the gravity tick. When neither paused nor over
and the drop interval has elapsed, move down or lock, then reset the
last-drop timestamp to the current time. -/
def update (g : TetrisGame) (current_time : ℚ) (draw_if_none draw_next : ShapeType) :
    TetrisGame :=
  if g.paused ∨ g.game_over then g
  else if g.drop_interval ≤ current_time - g.last_drop_time then
    if (g.move_piece 0 1).2 then
      { (g.move_piece 0 1).1 with last_drop_time := current_time }
    else
      { (g.move_piece 0 1).1.lock_piece draw_if_none draw_next with
        last_drop_time := current_time }
  else g

/-- `TetrisGame.toggle_pause`. -/
def toggle_pause (g : TetrisGame) : TetrisGame :=
  { g with paused := !g.paused }

/-- `TetrisGame.toggle_theme`. -/
def toggle_theme (g : TetrisGame) : TetrisGame :=
  { g with theme :=
      if g.theme = ColorTheme.GREEN then ColorTheme.AMBER else ColorTheme.GREEN }

/-- The freshly reset state shared by `TetrisGame.__init__` and
`TetrisGame.restart` before the two spawn calls: empty default board,
no pieces, zeroed counters, default interval. -/
def freshState (theme : ColorTheme) (t : ℚ) : TetrisGame :=
  { board := Board.init 10 20, current_piece := none, next_piece := none,
    score := 0, level := 1, lines_cleared := 0, paused := false, game_over := false,
    theme := theme, last_drop_time := t, drop_interval := 1.0 }

/-- `TetrisGame.__init__`: fresh state (green theme) followed by two
spawns; the three random draws are `d1`, `d2`, `d3` in order. -/
def init (t : ℚ) (d1 d2 d3 : ShapeType) : TetrisGame :=
  ((freshState ColorTheme.GREEN t).spawn_new_piece d1 d2).spawn_new_piece d3 d3

/-- `TetrisGame.restart`: reset every field except the theme, then two
spawns, as in `__init__`. -/
def restart (g : TetrisGame) (t : ℚ) (d1 d2 d3 : ShapeType) : TetrisGame :=
  ((freshState g.theme t).spawn_new_piece d1 d2).spawn_new_piece d3 d3

end TetrisGame

/-- The arrow-down branch of `TetrisUI.handle_input`: soft drop via
`move_piece(0, 1)`, adding 1 point to the score on success (the bonus
lives in the input layer, not in `move_piece`). -/
def TetrisUI.handle_key_down (g : TetrisGame) : TetrisGame :=
  let m := g.move_piece 0 1
  if m.2 then { m.1 with score := m.1.score + 1 } else m.1

/-! Concrete states used by the evaluation witnesses. -/

/-- The default empty board. -/
def bEmpty : Board := Board.init 10 20

/-- A board whose spawn row is fully occupied. -/
def row0Full : Board :=
  { width := 10, height := 20,
    grid := List.replicate 10 'X' :: List.replicate 19 (List.replicate 10 '.') }

/-- A board whose bottom row (row 19) is fully occupied. -/
def bRow19 : Board :=
  { width := 10, height := 20,
    grid := List.replicate 19 (List.replicate 10 '.') ++ [List.replicate 10 'X'] }

/-- A game state holding an `O` piece at spawn over an empty board. -/
def gExample : TetrisGame :=
  { board := bEmpty, current_piece := some (Tetromino.init ShapeType.O),
    next_piece := some (Tetromino.init ShapeType.T), score := 0, level := 1,
    lines_cleared := 0, paused := false, game_over := false,
    theme := ColorTheme.GREEN, last_drop_time := 0, drop_interval := 1 }

/-! Helper lemmas about the iteration combinators of the embedding. -/

/-- A range-indexed `all` is `false` exactly on an in-range failure. -/
lemma allRange_eq_false_iff (n : Nat) (f : Nat → Bool) :
    ((List.range n).all f = false) ↔ ∃ i, i < n ∧ f i = false := by
  rw [← Bool.not_eq_true, List.all_eq_true]
  push_neg
  simp [List.mem_range]

/-- The per-cell check of `is_valid_position` fails exactly on an
occupied cell whose resolved position is rejected. -/
lemma check_false_iff (A B : Prop) [Decidable A] [Decidable B] :
    ((if A then (if B then false else true) else true) = false) ↔ (A ∧ B) := by
  split_ifs with h1 h2 <;> simp_all

/-- C1: `Board.is_valid_position` returns `false` iff some occupied
cell of the piece's current frame, placed at `(piece.x + dx,
piece.y + dy)`, resolves to a column outside `[0, W)`, or a row `≥ H`,
or — only when its row is `≥ 0` — an occupied grid cell; rows `< 0`
are exempt from the occupied-cell check but still column-checked. The
embedded call is a pure predicate: it returns only a `Bool`, leaving
board and piece untouched. -/
theorem is_valid_position_false_iff (b : Board) (p : Tetromino) (dx dy : Int) :
    b.is_valid_position p dx dy = false ↔
      ∃ r c, r < p.get_current_shape.length ∧
        c < (p.get_current_shape.getD r ("")).data.length ∧
        (p.get_current_shape.getD r ("")).data.getD c '.' ≠ '.' ∧
        (p.x + (c : Int) + dx < 0 ∨ (b.width : Int) ≤ p.x + (c : Int) + dx ∨
         (b.height : Int) ≤ p.y + (r : Int) + dy ∨
         (0 ≤ p.y + (r : Int) + dy ∧
          (b.grid.getD (p.y + (r : Int) + dy).toNat []).getD
            (p.x + (c : Int) + dx).toNat ' ' ≠ '.')) := by
  unfold Board.is_valid_position
  rw [allRange_eq_false_iff]
  constructor
  · rintro ⟨r, hr, hfalse⟩
    rw [allRange_eq_false_iff] at hfalse
    obtain ⟨c, hc, hcell⟩ := hfalse
    rw [check_false_iff] at hcell
    exact ⟨r, c, hr, hc, hcell.1, hcell.2⟩
  · rintro ⟨r, c, hr, hc, hocc, hcond⟩
    refine ⟨r, hr, ?_⟩
    rw [allRange_eq_false_iff]
    refine ⟨c, hc, ?_⟩
    rw [check_false_iff]
    exact ⟨hocc, hcond⟩

/-! Line clearing: the fold of `clear_lines` computes filter and count. -/

/-- The row-scanning fold keeps exactly the rows with an empty cell, in
order, and counts the full rows. -/
lemma clearFold_eq (rows : List (List Char)) (acc : List (List Char)) (cnt : Nat) :
    rows.foldl
      (fun (acc : List (List Char) × Nat) row =>
        if '.' ∈ row then (acc.1 ++ [row], acc.2) else (acc.1, acc.2 + 1))
      (acc, cnt)
    = (acc ++ rows.filter (fun row => decide ('.' ∈ row)),
       cnt + (rows.filter (fun row => decide ('.' ∉ row))).length) := by
  induction rows generalizing acc cnt with
  | nil => simp
  | cons hd tl ih =>
    by_cases h : '.' ∈ hd
    · simp [List.filter_cons, h, ih]
    · simp [List.filter_cons, h, ih]
      omega

/-- The padding loop prepends exactly `height - g.length` empty rows
whenever it has enough fuel. -/
lemma padTopAux_eq (fuel : Nat) (g : List (List Char)) (width height : Nat)
    (h : height - g.length ≤ fuel) :
    padTopAux fuel g width height =
      List.replicate (height - g.length) (List.replicate width '.') ++ g := by
  induction fuel generalizing g with
  | zero =>
    have h0 : height - g.length = 0 := by omega
    rw [padTopAux, h0]
    simp
  | succ n ih =>
    rw [padTopAux]
    by_cases hlt : g.length < height
    · rw [if_pos hlt, ih (List.replicate width '.' :: g) (by simp; omega)]
      have hstep : height - g.length = (height - (List.replicate width '.' :: g).length) + 1 := by
        simp; omega
      rw [hstep, List.replicate_succ']
      simp
    · rw [if_neg hlt]
      have h0 : height - g.length = 0 := by omega
      rw [h0]
      simp

/-- The padding loop, with its actual fuel. -/
lemma padTop_eq (g : List (List Char)) (width height : Nat) :
    padTop g width height =
      List.replicate (height - g.length) (List.replicate width '.') ++ g :=
  padTopAux_eq height g width height (by omega)

/-- C3: `Board.clear_lines` removes exactly the rows containing no
empty cell, keeps the remaining rows in order with their contents,
prepends fresh empty rows to restore height `H`, and returns the number
of removed rows (`0` when no row is complete). -/
theorem clear_lines_spec (b : Board) (h : b.grid.length = b.height) :
    b.clear_lines.1.grid =
      List.replicate (b.height - (b.grid.filter (fun row => decide ('.' ∈ row))).length)
        (List.replicate b.width '.') ++ b.grid.filter (fun row => decide ('.' ∈ row)) ∧
    b.clear_lines.1.grid.length = b.height ∧
    b.clear_lines.2 = (b.grid.filter (fun row => decide ('.' ∉ row))).length ∧
    b.clear_lines.1.width = b.width ∧ b.clear_lines.1.height = b.height := by
  have hfilter : (b.grid.filter (fun row => decide ('.' ∈ row))).length ≤ b.height :=
    h ▸ List.length_filter_le _ _
  unfold Board.clear_lines
  rw [clearFold_eq]
  refine ⟨by simp [padTop_eq], ?_, by simp, rfl, rfl⟩
  simp [padTop_eq, List.length_replicate]
  omega

/-! Spawning and movement. -/

/-- Spawning never changes the score. -/
@[simp] lemma spawn_score (g : TetrisGame) (d1 d2 : ShapeType) :
    (g.spawn_new_piece d1 d2).score = g.score := by
  cases g.next_piece <;>
    simp [TetrisGame.spawn_new_piece, apply_ite TetrisGame.score, apply_ite TetrisGame.level,
      apply_ite TetrisGame.lines_cleared, apply_ite TetrisGame.drop_interval,
      apply_ite TetrisGame.board, apply_ite TetrisGame.paused, apply_ite TetrisGame.next_piece]

/-- Spawning never changes the level. -/
@[simp] lemma spawn_level (g : TetrisGame) (d1 d2 : ShapeType) :
    (g.spawn_new_piece d1 d2).level = g.level := by
  cases g.next_piece <;>
    simp [TetrisGame.spawn_new_piece, apply_ite TetrisGame.score, apply_ite TetrisGame.level,
      apply_ite TetrisGame.lines_cleared, apply_ite TetrisGame.drop_interval,
      apply_ite TetrisGame.board, apply_ite TetrisGame.paused, apply_ite TetrisGame.next_piece]

/-- Spawning never changes the line count. -/
@[simp] lemma spawn_lines (g : TetrisGame) (d1 d2 : ShapeType) :
    (g.spawn_new_piece d1 d2).lines_cleared = g.lines_cleared := by
  cases g.next_piece <;>
    simp [TetrisGame.spawn_new_piece, apply_ite TetrisGame.score, apply_ite TetrisGame.level,
      apply_ite TetrisGame.lines_cleared, apply_ite TetrisGame.drop_interval,
      apply_ite TetrisGame.board, apply_ite TetrisGame.paused, apply_ite TetrisGame.next_piece]

/-- Spawning never changes the drop interval. -/
@[simp] lemma spawn_interval (g : TetrisGame) (d1 d2 : ShapeType) :
    (g.spawn_new_piece d1 d2).drop_interval = g.drop_interval := by
  cases g.next_piece <;>
    simp [TetrisGame.spawn_new_piece, apply_ite TetrisGame.score, apply_ite TetrisGame.level,
      apply_ite TetrisGame.lines_cleared, apply_ite TetrisGame.drop_interval,
      apply_ite TetrisGame.board, apply_ite TetrisGame.paused, apply_ite TetrisGame.next_piece]

/-- Spawning never changes the board. -/
@[simp] lemma spawn_board (g : TetrisGame) (d1 d2 : ShapeType) :
    (g.spawn_new_piece d1 d2).board = g.board := by
  cases g.next_piece <;>
    simp [TetrisGame.spawn_new_piece, apply_ite TetrisGame.score, apply_ite TetrisGame.level,
      apply_ite TetrisGame.lines_cleared, apply_ite TetrisGame.drop_interval,
      apply_ite TetrisGame.board, apply_ite TetrisGame.paused, apply_ite TetrisGame.next_piece]

/-- Spawning never changes the paused flag. -/
@[simp] lemma spawn_paused (g : TetrisGame) (d1 d2 : ShapeType) :
    (g.spawn_new_piece d1 d2).paused = g.paused := by
  cases g.next_piece <;>
    simp [TetrisGame.spawn_new_piece, apply_ite TetrisGame.score, apply_ite TetrisGame.level,
      apply_ite TetrisGame.lines_cleared, apply_ite TetrisGame.drop_interval,
      apply_ite TetrisGame.board, apply_ite TetrisGame.paused, apply_ite TetrisGame.next_piece]

/-- Spawning always installs a freshly drawn next piece. -/
@[simp] lemma spawn_next (g : TetrisGame) (d1 d2 : ShapeType) :
    (g.spawn_new_piece d1 d2).next_piece = some (Tetromino.init d2) := by
  cases g.next_piece <;>
    simp [TetrisGame.spawn_new_piece, apply_ite TetrisGame.score, apply_ite TetrisGame.level,
      apply_ite TetrisGame.lines_cleared, apply_ite TetrisGame.drop_interval,
      apply_ite TetrisGame.board, apply_ite TetrisGame.paused, apply_ite TetrisGame.next_piece]

/-- C4: when the incoming piece, repositioned to spawn column 4 row 0,
fails placement validation, `spawn_new_piece` sets the game-over flag
and leaves the current piece held at the now-invalid spawn position;
the board grid is unchanged by any spawn. -/
theorem spawn_invalid_sets_game_over (g : TetrisGame) (d1 d2 : ShapeType) :
    (g.spawn_new_piece d1 d2).board = g.board ∧
    (∀ q, g.next_piece = some q →
      g.board.is_valid_position { q with x := 4, y := 0 } 0 0 = false →
      (g.spawn_new_piece d1 d2).game_over = true ∧
      (g.spawn_new_piece d1 d2).current_piece = some { q with x := 4, y := 0 }) ∧
    (g.next_piece = none →
      g.board.is_valid_position { Tetromino.init d1 with x := 4, y := 0 } 0 0 = false →
      (g.spawn_new_piece d1 d2).game_over = true ∧
      (g.spawn_new_piece d1 d2).current_piece =
        some { Tetromino.init d1 with x := 4, y := 0 }) := by
  refine ⟨spawn_board g d1 d2, ?_, ?_⟩
  · intro q hq hv
    unfold TetrisGame.spawn_new_piece
    rw [hq]
    simp [hv]
  · intro hq hv
    unfold TetrisGame.spawn_new_piece
    rw [hq]
    simp [hv]

/-- C4 witness: spawning onto a board whose row 0 is fully occupied
sets game-over and keeps the piece at the blocked spawn point. -/
theorem spawn_invalid_sets_game_over_witness :
    ({ gExample with board := row0Full } : TetrisGame).next_piece =
        some (Tetromino.init ShapeType.T) ∧
    row0Full.is_valid_position
        { Tetromino.init ShapeType.T with x := 4, y := 0 } 0 0 = false ∧
    (({ gExample with board := row0Full } : TetrisGame).spawn_new_piece
        ShapeType.I ShapeType.I).game_over = true :=
  ⟨rfl, by decide,
    (((spawn_invalid_sets_game_over { gExample with board := row0Full }
        ShapeType.I ShapeType.I).2.1 (Tetromino.init ShapeType.T) rfl) (by decide)).1⟩

/-- C5: `move_piece` with no current piece fails and changes nothing;
with a current piece it either commits exactly the offset `(dx, dy)`
into the stored position (kind and rotation untouched) and succeeds, or
— when the offset does not validate — leaves the whole state untouched
and fails. -/
theorem move_piece_spec (g : TetrisGame) (dx dy : Int) :
    (g.current_piece = none → g.move_piece dx dy = (g, false)) ∧
    (∀ p, g.current_piece = some p →
      (g.board.is_valid_position p dx dy = true →
        g.move_piece dx dy =
          ({ g with current_piece := some { p with x := p.x + dx, y := p.y + dy } }, true)) ∧
      (g.board.is_valid_position p dx dy = false →
        g.move_piece dx dy = (g, false))) := by
  refine ⟨fun h => by simp [TetrisGame.move_piece, h],
    fun p hp => ⟨fun hv => ?_, fun hv => ?_⟩⟩
  · simp [TetrisGame.move_piece, hp, hv]
  · simp [TetrisGame.move_piece, hp, hv]

/-- C5 witness: moving the spawned `O` piece right by one on an empty
board succeeds and adds exactly `(1, 0)` to its position. -/
theorem move_piece_spec_witness :
    gExample.current_piece = some (Tetromino.init ShapeType.O) ∧
    gExample.board.is_valid_position (Tetromino.init ShapeType.O) 1 0 = true ∧
    gExample.move_piece 1 0 =
      ({ gExample with current_piece := some { Tetromino.init ShapeType.O with
          x := (Tetromino.init ShapeType.O).x + 1,
          y := (Tetromino.init ShapeType.O).y + 0 } }, true) :=
  ⟨rfl, by decide,
    ((move_piece_spec gExample 1 0).2 (Tetromino.init ShapeType.O) rfl).1 (by decide)⟩

/-- `move_piece` can change only the current piece: every other field
of the state is preserved, in both the success and failure branches. -/
lemma move_frame (g : TetrisGame) (dx dy : Int) :
    (g.move_piece dx dy).1.score = g.score ∧
    (g.move_piece dx dy).1.level = g.level ∧
    (g.move_piece dx dy).1.lines_cleared = g.lines_cleared ∧
    (g.move_piece dx dy).1.board = g.board ∧
    (g.move_piece dx dy).1.paused = g.paused ∧
    (g.move_piece dx dy).1.game_over = g.game_over ∧
    (g.move_piece dx dy).1.next_piece = g.next_piece ∧
    (g.move_piece dx dy).1.theme = g.theme ∧
    (g.move_piece dx dy).1.drop_interval = g.drop_interval ∧
    (g.move_piece dx dy).1.last_drop_time = g.last_drop_time := by
  unfold TetrisGame.move_piece
  cases g.current_piece with
  | none => simp
  | some p => by_cases h : g.board.is_valid_position p dx dy <;> simp [h]

/-- C8: `move_piece` never changes score, level, line count, board
grid, paused flag or game-over flag — in particular a successful
`move(0, 1)` awards no points by itself; the soft-drop 1-point bonus is
added only by the input-handling layer (`handle_key_down`) around the
call. -/
theorem move_piece_frame_effect (g : TetrisGame) (dx dy : Int) :
    (g.move_piece dx dy).1.score = g.score ∧
    (g.move_piece dx dy).1.level = g.level ∧
    (g.move_piece dx dy).1.lines_cleared = g.lines_cleared ∧
    (g.move_piece dx dy).1.board = g.board ∧
    (g.move_piece dx dy).1.paused = g.paused ∧
    (g.move_piece dx dy).1.game_over = g.game_over ∧
    ((g.move_piece 0 1).2 = true →
      (TetrisUI.handle_key_down g).score = g.score + 1) := by
  obtain ⟨h1, h2, h3, h4, h5, h6, -⟩ := move_frame g dx dy
  refine ⟨h1, h2, h3, h4, h5, h6, fun hsucc => ?_⟩
  unfold TetrisUI.handle_key_down
  rw [if_pos hsucc, (move_frame g 0 1).1]

/-- C8 witness: on the example state the downward move succeeds, and
the input layer (not the engine) adds the single soft-drop point. -/
theorem move_piece_frame_effect_witness :
    (gExample.move_piece 0 1).2 = true ∧
    (TetrisUI.handle_key_down gExample).score = gExample.score + 1 :=
  ⟨by decide, (move_piece_frame_effect gExample 0 1).2.2.2.2.2.2 (by decide)⟩

/-! Locking and scoring. -/

/-- `_calculate_score` on a natural count: the base-score table entry
times `level + 1`, and `0` for any count above 4. -/
lemma calculate_score_eq (g : TetrisGame) (n : Nat) :
    g.calculate_score (n : Int) =
      if n ≤ 4 then TetrisGame.LINE_CLEAR_SCORES.getD n 0 * ((g.level : Int) + 1)
      else 0 := by
  unfold TetrisGame.calculate_score
  by_cases h : n ≤ 4
  · rw [if_neg, if_pos h]
    · simp
    · simp [TetrisGame.LINE_CLEAR_SCORES]
      omega
  · rw [if_pos, if_neg h]
    simp [TetrisGame.LINE_CLEAR_SCORES]
    omega

/-- C2: `lock_piece` commits the piece and clears lines; when the
cleared count `n` is positive it adds `n` to the line count, adds
`LINE_CLEAR_SCORES[n] * (L + 1)` to the score (where `L` is the level
held before the lock, and any `n` outside `[0, 4]` scores `0`), then
recomputes the level as `min 20 (lines / 10 + 1)` and the drop interval
as `max 0.05 (1 - (level - 1) * 0.05)`; when `n = 0` the score, level,
line count and drop interval are unchanged. -/
theorem lock_piece_spec (g : TetrisGame) (p : Tetromino) (d1 d2 : ShapeType)
    (h : g.current_piece = some p) :
    ∀ n, n = ((g.board.place_piece p).clear_lines).2 →
      (g.lock_piece d1 d2).board = ((g.board.place_piece p).clear_lines).1 ∧
      (n = 0 →
        (g.lock_piece d1 d2).score = g.score ∧
        (g.lock_piece d1 d2).level = g.level ∧
        (g.lock_piece d1 d2).lines_cleared = g.lines_cleared ∧
        (g.lock_piece d1 d2).drop_interval = g.drop_interval) ∧
      (0 < n →
        (g.lock_piece d1 d2).lines_cleared = g.lines_cleared + n ∧
        (g.lock_piece d1 d2).score = g.score +
          (if n ≤ 4 then
            TetrisGame.LINE_CLEAR_SCORES.getD n 0 * ((g.level : Int) + 1)
           else 0) ∧
        (g.lock_piece d1 d2).level = min 20 ((g.lines_cleared + n) / 10 + 1) ∧
        (g.lock_piece d1 d2).drop_interval =
          max 0.05 (1.0 - (((min 20 ((g.lines_cleared + n) / 10 + 1) : Nat) : ℚ) - 1) * 0.05)) := by
  intro n hn
  subst hn
  simp only [TetrisGame.lock_piece, h]
  simp only [spawn_board, spawn_score, spawn_level, spawn_lines, spawn_interval]
  by_cases hpos : 0 < ((g.board.place_piece p).clear_lines).2
  · rw [if_pos hpos]
    refine ⟨rfl, fun h0 => absurd hpos (by omega), fun _ => ?_⟩
    refine ⟨rfl, ?_, rfl, rfl⟩
    show g.score + TetrisGame.calculate_score _ _ = _
    rw [calculate_score_eq]
  · rw [if_neg hpos]
    exact ⟨rfl, fun _ => ⟨rfl, rfl, rfl, rfl⟩, fun hpos' => absurd hpos' hpos⟩

/-- C2 witness: locking the spawned `O` piece over an empty board
clears no line and leaves score, level, lines and interval unchanged. -/
theorem lock_piece_spec_witness :
    gExample.current_piece = some (Tetromino.init ShapeType.O) ∧
    ((gExample.board.place_piece (Tetromino.init ShapeType.O)).clear_lines).2 = 0 ∧
    (gExample.lock_piece ShapeType.I ShapeType.I).score = gExample.score :=
  ⟨rfl, by decide,
    ((lock_piece_spec gExample (Tetromino.init ShapeType.O) ShapeType.I ShapeType.I rfl
        ((gExample.board.place_piece (Tetromino.init ShapeType.O)).clear_lines).2 rfl).2.1
      (by decide)).1⟩

/-- C3 witness: clearing the board whose row 19 is full removes exactly
that row and restores the height. -/
theorem clear_lines_spec_witness :
    bRow19.grid.length = bRow19.height ∧
    (bRow19.clear_lines.1.grid =
      List.replicate
          (bRow19.height - (bRow19.grid.filter (fun row => decide ('.' ∈ row))).length)
          (List.replicate bRow19.width '.') ++
        bRow19.grid.filter (fun row => decide ('.' ∈ row)) ∧
    bRow19.clear_lines.1.grid.length = bRow19.height ∧
    bRow19.clear_lines.2 = (bRow19.grid.filter (fun row => decide ('.' ∉ row))).length ∧
    bRow19.clear_lines.1.width = bRow19.width ∧
    bRow19.clear_lines.1.height = bRow19.height) :=
  ⟨by decide, clear_lines_spec bRow19 (by decide)⟩


/-! Rotation algebra. -/

/-- Every kind has at least one rotation frame. -/
lemma SHAPES_length_pos (t : ShapeType) : 0 < (Tetromino.SHAPES t).length := by
  cases t <;> decide

/-- Iterating `rotate` accumulates into the rotation index modulo the
frame count, leaving kind and position fixed. -/
lemma rotate_iterate (m : Nat) (p : Tetromino) :
    (Tetromino.rotate)^[m + 1] p =
      { type := p.type,
        rotation := (p.rotation + (m + 1)) % (Tetromino.SHAPES p.type).length,
        x := p.x, y := p.y } := by
  induction m generalizing p with
  | zero => simp [Tetromino.rotate]
  | succ k ih =>
    rw [Function.iterate_succ_apply, ih]
    simp only [Tetromino.rotate, Nat.mod_add_mod]
    have harith : p.rotation + 1 + (k + 1) = p.rotation + (k + 1 + 1) := by omega
    rw [harith]

/-- C6 counterexample: for the `O` kind (frame count 1) started at
rotation index 1, a single application of `rotate` — the kind's frame
count many applications — does not return the original rotation index
(it lands on `1 % 1 = 0`), refuting the claim for starting rotation
indices not already reduced modulo the frame count. -/
theorem rotate_cycle_counterexample :
    ¬ ((Tetromino.rotate)^[(Tetromino.SHAPES ShapeType.O).length]
          ({ type := ShapeType.O, rotation := 1, x := 4, y := 0 } : Tetromino)).rotation =
        ({ type := ShapeType.O, rotation := 1, x := 4, y := 0 } : Tetromino).rotation := by
  decide

/-- C6 (amended): each single `rotate` yields a new piece with the same
kind and position and the rotation index advanced by one modulo the
frame count (the embedding is pure, so the original piece value is
untouched); and for every piece whose starting rotation index is
already reduced modulo the kind's frame count, applying `rotate` frame
count many times (4 for I/T/J/L, 1 for O, 2 for S/Z) restores the
original piece — rotation index, kind and position. -/
theorem rotate_spec (p : Tetromino) :
    (p.rotate.type = p.type ∧ p.rotate.x = p.x ∧ p.rotate.y = p.y ∧
      p.rotate.rotation = (p.rotation + 1) % (Tetromino.SHAPES p.type).length) ∧
    (p.rotation < (Tetromino.SHAPES p.type).length →
      (Tetromino.rotate)^[(Tetromino.SHAPES p.type).length] p = p) := by
  refine ⟨⟨rfl, rfl, rfl, rfl⟩, fun hlt => ?_⟩
  obtain ⟨m, hm⟩ : ∃ m, (Tetromino.SHAPES p.type).length = m + 1 :=
    ⟨(Tetromino.SHAPES p.type).length - 1, by have := SHAPES_length_pos p.type; omega⟩
  rw [hm, rotate_iterate m p, hm]
  have hrot : (p.rotation + (m + 1)) % (m + 1) = p.rotation := by
    rw [Nat.add_mod_right]
    exact Nat.mod_eq_of_lt (hm ▸ hlt)
  rw [hrot]

/-- C6 witness: the freshly spawned `T` piece (rotation 0, frame count
4) returns to itself after four rotations. -/
theorem rotate_spec_witness :
    (Tetromino.init ShapeType.T).rotation < (Tetromino.SHAPES ShapeType.T).length ∧
    (Tetromino.rotate)^[(Tetromino.SHAPES ShapeType.T).length]
        (Tetromino.init ShapeType.T) = Tetromino.init ShapeType.T :=
  ⟨by decide, (rotate_spec (Tetromino.init ShapeType.T)).2 (by decide)⟩


/-! Score monotonicity and the reachable-state invariants. -/

/-- Every entry of the base-score table is nonnegative (out-of-range
lookups default to 0). -/
lemma LINE_CLEAR_SCORES_getD_nonneg (i : Nat) :
    0 ≤ TetrisGame.LINE_CLEAR_SCORES.getD i 0 := by
  rcases i with _ | _ | _ | _ | _ | i <;>
    simp [TetrisGame.LINE_CLEAR_SCORES, List.getD]

/-- `_calculate_score` never returns a negative amount. -/
lemma calculate_score_nonneg (g : TetrisGame) (n : Int) :
    0 ≤ g.calculate_score n := by
  unfold TetrisGame.calculate_score
  split
  · exact le_refl 0
  · exact mul_nonneg (LINE_CLEAR_SCORES_getD_nonneg _) (by positivity)

/-- `rotate_piece` can change only the current piece. -/
lemma rotate_frame (g : TetrisGame) :
    g.rotate_piece.1.score = g.score ∧
    g.rotate_piece.1.level = g.level ∧
    g.rotate_piece.1.lines_cleared = g.lines_cleared ∧
    g.rotate_piece.1.board = g.board ∧
    g.rotate_piece.1.paused = g.paused ∧
    g.rotate_piece.1.game_over = g.game_over ∧
    g.rotate_piece.1.next_piece = g.next_piece ∧
    g.rotate_piece.1.drop_interval = g.drop_interval ∧
    g.rotate_piece.1.last_drop_time = g.last_drop_time := by
  unfold TetrisGame.rotate_piece
  cases g.current_piece with
  | none => simp
  | some p => by_cases h : g.board.is_valid_position p.rotate 0 0 <;> simp [h]

/-- Locking never decreases the score. -/
lemma lock_score_le (g : TetrisGame) (d1 d2 : ShapeType) :
    g.score ≤ (g.lock_piece d1 d2).score := by
  unfold TetrisGame.lock_piece
  cases g.current_piece with
  | none => exact le_refl _
  | some p =>
    simp only [spawn_score]
    split
    · exact le_add_of_nonneg_right (calculate_score_nonneg _ _)
    · exact le_refl _

/-- The hard-drop loop never decreases the score. -/
lemma hardDropLoop_score_le (fuel : Nat) (g : TetrisGame) :
    g.score ≤ (g.hardDropLoop fuel).score := by
  induction fuel generalizing g with
  | zero => exact le_refl _
  | succ k ih =>
    unfold TetrisGame.hardDropLoop
    by_cases h : (g.move_piece 0 1).2
    · rw [if_pos h]
      refine le_trans ?_ (ih _)
      show g.score ≤ (g.move_piece 0 1).1.score + TetrisGame.HARD_DROP_POINTS
      rw [(move_frame g 0 1).1]
      unfold TetrisGame.HARD_DROP_POINTS
      omega
    · rw [if_neg h, (move_frame g 0 1).1]

/-- Hard drop never decreases the score. -/
lemma hard_drop_score_le (g : TetrisGame) (d1 d2 : ShapeType) :
    g.score ≤ (g.hard_drop d1 d2).score := by
  unfold TetrisGame.hard_drop
  cases g.current_piece with
  | none => exact le_refl _
  | some p => exact le_trans (hardDropLoop_score_le _ g) (lock_score_le _ d1 d2)

/-- The gravity tick never decreases the score. -/
lemma update_score_le (g : TetrisGame) (t : ℚ) (d1 d2 : ShapeType) :
    g.score ≤ (g.update t d1 d2).score := by
  unfold TetrisGame.update
  split
  · exact le_refl _
  · split
    · split
      · exact le_of_eq (move_frame g 0 1).1.symm
      · exact le_trans (le_of_eq (move_frame g 0 1).1.symm) (lock_score_le _ d1 d2)
    · exact le_refl _

/-- Restart resets the score to 0. -/
lemma restart_score (g : TetrisGame) (t : ℚ) (d1 d2 d3 : ShapeType) :
    (g.restart t d1 d2 d3).score = 0 := by
  simp [TetrisGame.restart, TetrisGame.freshState]

/-- The states reachable from construction or restart by the public
engine operations, with the random draws, offsets and clock readings
quantified. -/
inductive Reachable : TetrisGame → Prop where
  | init : ∀ (t : ℚ) (d1 d2 d3 : ShapeType), Reachable (TetrisGame.init t d1 d2 d3)
  | move : ∀ g (dx dy : Int), Reachable g → Reachable (g.move_piece dx dy).1
  | rot : ∀ g, Reachable g → Reachable g.rotate_piece.1
  | drop : ∀ g d1 d2, Reachable g → Reachable (g.hard_drop d1 d2)
  | lock : ∀ g d1 d2, Reachable g → Reachable (g.lock_piece d1 d2)
  | tick : ∀ g (t : ℚ) d1 d2, Reachable g → Reachable (g.update t d1 d2)
  | pauseToggle : ∀ g, Reachable g → Reachable g.toggle_pause
  | themeToggle : ∀ g, Reachable g → Reachable g.toggle_theme
  | restart : ∀ g (t : ℚ) (d1 d2 d3 : ShapeType), Reachable g → Reachable (g.restart t d1 d2 d3)
  | spawn : ∀ g d1 d2, Reachable g → Reachable (g.spawn_new_piece d1 d2)

/-- In every reachable state the score is nonnegative: it starts at 0
and no operation other than restart (which resets it to 0) decreases
it. -/
lemma reachable_score_nonneg (g : TetrisGame) (h : Reachable g) : 0 ≤ g.score := by
  induction h with
  | init t d1 d2 d3 => simp [TetrisGame.init, TetrisGame.freshState]
  | move g dx dy _ ih => rw [(move_frame g dx dy).1]; exact ih
  | rot g _ ih => rw [(rotate_frame g).1]; exact ih
  | drop g d1 d2 _ ih => exact le_trans ih (hard_drop_score_le g d1 d2)
  | lock g d1 d2 _ ih => exact le_trans ih (lock_score_le g d1 d2)
  | tick g t d1 d2 _ ih => exact le_trans ih (update_score_le g t d1 d2)
  | pauseToggle g _ ih => exact ih
  | themeToggle g _ ih => exact ih
  | restart g t d1 d2 d3 _ _ => rw [restart_score]
  | spawn g d1 d2 _ ih => rw [spawn_score]; exact ih

/-- C9: the score is nonnegative in every reachable state, every engine
operation other than restart (move, rotate, hard drop, lock, tick,
toggle pause, toggle theme) leaves the score at least its previous
value, and restart resets it to 0. -/
theorem score_nonneg_monotone (g : TetrisGame) (dx dy : Int) (t : ℚ)
    (d1 d2 d3 : ShapeType) :
    (Reachable g → 0 ≤ g.score) ∧
    g.score ≤ (g.move_piece dx dy).1.score ∧
    g.score ≤ g.rotate_piece.1.score ∧
    g.score ≤ (g.hard_drop d1 d2).score ∧
    g.score ≤ (g.lock_piece d1 d2).score ∧
    g.score ≤ (g.update t d1 d2).score ∧
    g.toggle_pause.score = g.score ∧
    g.toggle_theme.score = g.score ∧
    (g.restart t d1 d2 d3).score = 0 :=
  ⟨reachable_score_nonneg g,
   le_of_eq (move_frame g dx dy).1.symm,
   le_of_eq (rotate_frame g).1.symm,
   hard_drop_score_le g d1 d2,
   lock_score_le g d1 d2,
   update_score_le g t d1 d2,
   rfl, rfl, restart_score g t d1 d2 d3⟩

/-- C9 witness: the freshly constructed game has nonnegative score, and
a hard drop from it does not decrease the score. -/
theorem score_nonneg_monotone_witness :
    (0 : Int) ≤ (TetrisGame.init 0 ShapeType.I ShapeType.O ShapeType.T).score ∧
    (TetrisGame.init 0 ShapeType.I ShapeType.O ShapeType.T).score ≤
      ((TetrisGame.init 0 ShapeType.I ShapeType.O ShapeType.T).hard_drop
        ShapeType.S ShapeType.Z).score :=
  ⟨(score_nonneg_monotone (TetrisGame.init 0 ShapeType.I ShapeType.O ShapeType.T)
      1 0 5 ShapeType.S ShapeType.Z ShapeType.S).1
      (Reachable.init 0 ShapeType.I ShapeType.O ShapeType.T),
   (score_nonneg_monotone (TetrisGame.init 0 ShapeType.I ShapeType.O ShapeType.T)
      1 0 5 ShapeType.S ShapeType.Z ShapeType.S).2.2.2.1⟩


/-! The spawn-position invariant. -/

/-- The piece waiting in the preview is never rotated: its rotation
index is 0 whenever it exists. -/
def NextRotZero (g : TetrisGame) : Prop :=
  ∀ q, g.next_piece = some q → q.rotation = 0

/-- Spawning installs a freshly drawn (hence unrotated) next piece. -/
lemma spawn_nextRotZero (g : TetrisGame) (d1 d2 : ShapeType) :
    NextRotZero (g.spawn_new_piece d1 d2) := by
  intro q hq
  rw [spawn_next] at hq
  cases hq
  rfl

/-- The hard-drop loop never touches the next piece. -/
lemma hardDropLoop_next (fuel : Nat) (g : TetrisGame) :
    (g.hardDropLoop fuel).next_piece = g.next_piece := by
  induction fuel generalizing g with
  | zero => rfl
  | succ k ih =>
    unfold TetrisGame.hardDropLoop
    by_cases h : (g.move_piece 0 1).2
    · rw [if_pos h, ih]
      exact (move_frame g 0 1).2.2.2.2.2.2.1
    · rw [if_neg h]
      exact (move_frame g 0 1).2.2.2.2.2.2.1

/-- Locking preserves the next-piece invariant (it either leaves the
state alone or ends in a spawn). -/
lemma lock_nextRotZero (g : TetrisGame) (d1 d2 : ShapeType)
    (hg : NextRotZero g) : NextRotZero (g.lock_piece d1 d2) := by
  cases hc : g.current_piece with
  | none => simpa [TetrisGame.lock_piece, hc] using hg
  | some p =>
    simp only [TetrisGame.lock_piece, hc]
    exact spawn_nextRotZero _ d1 d2

/-- Hard drop preserves the next-piece invariant. -/
lemma hard_drop_nextRotZero (g : TetrisGame) (d1 d2 : ShapeType)
    (hg : NextRotZero g) : NextRotZero (g.hard_drop d1 d2) := by
  cases hc : g.current_piece with
  | none => simpa [TetrisGame.hard_drop, hc] using hg
  | some p =>
    simp only [TetrisGame.hard_drop, hc]
    refine lock_nextRotZero _ d1 d2 ?_
    intro q hq
    rw [hardDropLoop_next] at hq
    exact hg q hq

/-- The gravity tick preserves the next-piece invariant. -/
lemma update_nextRotZero (g : TetrisGame) (t : ℚ) (d1 d2 : ShapeType)
    (hg : NextRotZero g) : NextRotZero (g.update t d1 d2) := by
  unfold TetrisGame.update
  split
  · exact hg
  · split
    · split
      · intro q hq
        have hnext : (g.move_piece 0 1).1.next_piece = g.next_piece :=
          (move_frame g 0 1).2.2.2.2.2.2.1
        exact hg q (by rw [← hnext]; exact hq)
      · intro q hq
        refine lock_nextRotZero (g.move_piece 0 1).1 d1 d2 ?_ q hq
        intro q' hq'
        have hnext : (g.move_piece 0 1).1.next_piece = g.next_piece :=
          (move_frame g 0 1).2.2.2.2.2.2.1
        exact hg q' (by rw [← hnext]; exact hq')
    · exact hg

/-- Every reachable state satisfies the next-piece invariant. -/
lemma reachable_nextRotZero (g : TetrisGame) (h : Reachable g) : NextRotZero g := by
  induction h with
  | init t d1 d2 d3 => exact spawn_nextRotZero _ _ _
  | move g dx dy _ ih =>
    intro q hq
    have hnext : (g.move_piece dx dy).1.next_piece = g.next_piece :=
      (move_frame g dx dy).2.2.2.2.2.2.1
    exact ih q (by rw [← hnext]; exact hq)
  | rot g _ ih =>
    intro q hq
    have hnext : g.rotate_piece.1.next_piece = g.next_piece :=
      (rotate_frame g).2.2.2.2.2.2.1
    exact ih q (by rw [← hnext]; exact hq)
  | drop g d1 d2 _ ih => exact hard_drop_nextRotZero g d1 d2 ih
  | lock g d1 d2 _ ih => exact lock_nextRotZero g d1 d2 ih
  | tick g t d1 d2 _ ih => exact update_nextRotZero g t d1 d2 ih
  | pauseToggle g _ ih => exact ih
  | themeToggle g _ ih => exact ih
  | restart g t d1 d2 d3 _ _ => exact spawn_nextRotZero _ _ _
  | spawn g d1 d2 _ _ => exact spawn_nextRotZero g d1 d2

/-- Spawning always leaves the current piece at the spawn point with
its incoming rotation index. -/
lemma spawn_current (g : TetrisGame) (d1 d2 : ShapeType) :
    (g.spawn_new_piece d1 d2).current_piece =
      some { g.next_piece.getD (Tetromino.init d1) with x := 4, y := 0 } := by
  cases hq : g.next_piece with
  | none => simp [TetrisGame.spawn_new_piece, hq, apply_ite TetrisGame.current_piece]
  | some q => simp [TetrisGame.spawn_new_piece, hq, apply_ite TetrisGame.current_piece]

/-- C7: in every state reachable from construction or restart by the
public operations, any call to `spawn_new_piece` leaves the current
piece at spawn column 4, row 0, with rotation index 0 (the code does
not reset the rotation, but the preview piece is always unrotated in
reachable states). -/
theorem spawn_at_spawn_point (g : TetrisGame) (d1 d2 : ShapeType) (h : Reachable g) :
    ∃ c, (g.spawn_new_piece d1 d2).current_piece = some c ∧
      c.x = 4 ∧ c.y = 0 ∧ c.rotation = 0 := by
  have hnz := reachable_nextRotZero g h
  refine ⟨{ g.next_piece.getD (Tetromino.init d1) with x := 4, y := 0 },
    spawn_current g d1 d2, rfl, rfl, ?_⟩
  cases hq : g.next_piece with
  | none => rfl
  | some q => simpa [hq] using hnz q hq

/-- C7 witness: spawning from the freshly constructed game leaves the
current piece at the spawn point with rotation 0. -/
theorem spawn_at_spawn_point_witness :
    ∃ c, ((TetrisGame.init 0 ShapeType.I ShapeType.O ShapeType.T).spawn_new_piece
        ShapeType.S ShapeType.Z).current_piece = some c ∧
      c.x = 4 ∧ c.y = 0 ∧ c.rotation = 0 :=
  spawn_at_spawn_point (TetrisGame.init 0 ShapeType.I ShapeType.O ShapeType.T)
    ShapeType.S ShapeType.Z (Reachable.init 0 ShapeType.I ShapeType.O ShapeType.T)


/-! Out-of-bounds safety. -/

/-- Well-formed board: the grid is exactly `height` rows of `width`
cells (as established by `Board.__init__` and preserved by the
operations). -/
def Board.WF (b : Board) : Prop :=
  b.grid.length = b.height ∧ ∀ row ∈ b.grid, row.length = b.width

/-- Grid read `grid[y][x]` with explicit bounds checking: `none` where
the read would be out of range. -/
def pygetChecked (g : List (List Char)) (y x : Int) : Option Char :=
  if 0 ≤ y ∧ y < (g.length : Int) then
    if 0 ≤ x ∧ x < ((g.getD y.toNat []).length : Int) then
      some ((g.getD y.toNat []).getD x.toNat ' ')
    else none
  else none

/-- Short-circuiting conjunction over `0 .. n-1` in the `Option` monad:
`none` as soon as an executed check reports out-of-bounds, `some false`
as soon as a check fails. -/
def optAllRange (n : Nat) (f : Nat → Option Bool) : Option Bool :=
  (List.range n).foldl
    (fun acc i =>
      match acc with
      | none => none
      | some b => if b then f i else some false)
    (some true)

/-- `is_valid_position` with the frame lookup and every executed grid
access bounds-checked: `none` if any of them would be out of range,
otherwise `some` of the verdict. -/
def Board.is_valid_position_checked (b : Board) (p : Tetromino) (dx dy : Int) :
    Option Bool :=
  match (Tetromino.SHAPES p.type).get? (p.rotation % (Tetromino.SHAPES p.type).length) with
  | none => none
  | some shape =>
    optAllRange shape.length fun row_idx =>
      let row := (shape.getD row_idx ("")).data
      optAllRange row.length fun col_idx =>
        let cell := row.getD col_idx '.'
        if cell ≠ '.' then
          let new_x := p.x + (col_idx : Int) + dx
          let new_y := p.y + (row_idx : Int) + dy
          if new_x < 0 ∨ (b.width : Int) ≤ new_x ∨ (b.height : Int) ≤ new_y then
            some false
          else if 0 ≤ new_y then
            match pygetChecked b.grid new_y new_x with
            | none => none
            | some c => some (c = '.')
          else some true
        else some true

/-- The modulo-wrapped rotation index is always a valid frame index. -/
lemma get_current_shape_get? (p : Tetromino) :
    (Tetromino.SHAPES p.type).get? (p.rotation % (Tetromino.SHAPES p.type).length) =
      some p.get_current_shape := by
  have hlt : p.rotation % (Tetromino.SHAPES p.type).length <
      (Tetromino.SHAPES p.type).length :=
    Nat.mod_lt _ (SHAPES_length_pos p.type)
  rw [Tetromino.get_current_shape, List.getD_eq_get _ _ hlt, List.get?_eq_get hlt]

/-- A checked in-range read returns the unchecked value. -/
lemma pygetChecked_eq (g : List (List Char)) (y x : Int)
    (hy0 : 0 ≤ y) (hy : y < (g.length : Int))
    (hx0 : 0 ≤ x) (hx : x < ((g.getD y.toNat []).length : Int)) :
    pygetChecked g y x = some ((g.getD y.toNat []).getD x.toNat ' ') := by
  unfold pygetChecked
  rw [if_pos ⟨hy0, hy⟩, if_pos ⟨hx0, hx⟩]

/-- The checked range-fold agrees with the boolean one whenever every
executed check succeeds pointwise. -/
lemma optAllRange_eq_all (n : Nat) (f : Nat → Option Bool) (g : Nat → Bool) :
    (∀ i, i < n → f i = some (g i)) →
    optAllRange n f = some ((List.range n).all g) := by
  induction n with
  | zero => intro _; rfl
  | succ k ih =>
    intro h
    unfold optAllRange at ih ⊢
    rw [List.range_succ, List.foldl_append, ih (fun i hi => h i (by omega)),
      List.all_append]
    by_cases hall : (List.range k).all g = true
    · rw [hall]
      simp [h k (by omega)]
    · simp only [Bool.not_eq_true] at hall
      rw [hall]
      simp


/-- C10: the frame lookup of `get_current_shape` is always in bounds
(the rotation index is reduced modulo the frame count and every kind
has at least one frame), and on a well-formed board `is_valid_position`
reads a grid cell only when its row is inside `[0, H)` and its column
inside `[0, W)`: the fully bounds-checked variant never reports an
out-of-range access and agrees with the unchecked verdict. -/
theorem valid_position_no_oob (b : Board) (p : Tetromino) (dx dy : Int) (h : b.WF) :
    (Tetromino.SHAPES p.type).get? (p.rotation % (Tetromino.SHAPES p.type).length) =
      some p.get_current_shape ∧
    b.is_valid_position_checked p dx dy = some (b.is_valid_position p dx dy) := by
  refine ⟨get_current_shape_get? p, ?_⟩
  unfold Board.is_valid_position_checked Board.is_valid_position
  rw [get_current_shape_get?]
  dsimp only
  apply optAllRange_eq_all
  intro r hr
  dsimp only
  apply optAllRange_eq_all
  intro c hc
  dsimp only
  by_cases hcell : ((p.get_current_shape.getD r ("")).data.getD c '.') ≠ '.'
  case neg => rw [if_neg hcell, if_neg hcell]
  case pos =>
    rw [if_pos hcell, if_pos hcell]
    by_cases hor : (p.x + (c : Int) + dx < 0 ∨ (b.width : Int) ≤ p.x + (c : Int) + dx ∨
        (b.height : Int) ≤ p.y + (r : Int) + dy)
    · rw [if_pos hor, if_pos (by tauto :
        p.x + (c : Int) + dx < 0 ∨ (b.width : Int) ≤ p.x + (c : Int) + dx ∨
        (b.height : Int) ≤ p.y + (r : Int) + dy ∨
        (0 ≤ p.y + (r : Int) + dy ∧
          (b.grid.getD (p.y + (r : Int) + dy).toNat []).getD
            (p.x + (c : Int) + dx).toNat ' ' ≠ '.'))]
    · rw [if_neg hor]
      have hA : ¬(p.x + (c : Int) + dx < 0) := fun hx => hor (Or.inl hx)
      have hB : ¬((b.width : Int) ≤ p.x + (c : Int) + dx) :=
        fun hx => hor (Or.inr (Or.inl hx))
      have hC : ¬((b.height : Int) ≤ p.y + (r : Int) + dy) :=
        fun hx => hor (Or.inr (Or.inr hx))
      by_cases hy : 0 ≤ p.y + (r : Int) + dy
      · rw [if_pos hy]
        have hlen : b.grid.length = b.height := h.1
        have hylt : p.y + (r : Int) + dy < (b.grid.length : Int) := by omega
        have hmem : b.grid.getD (p.y + (r : Int) + dy).toNat [] ∈ b.grid := by
          rw [List.getD_eq_get _ _ (by omega : (p.y + (r : Int) + dy).toNat < b.grid.length)]
          exact List.get_mem _ _ _
        have hrowlen : (b.grid.getD (p.y + (r : Int) + dy).toNat []).length = b.width :=
          h.2 _ hmem
        have hxlt : p.x + (c : Int) + dx <
            ((b.grid.getD (p.y + (r : Int) + dy).toNat []).length : Int) := by omega
        rw [pygetChecked_eq b.grid _ _ hy hylt (by omega) hxlt]
        dsimp only
        by_cases hdot : (b.grid.getD (p.y + (r : Int) + dy).toNat []).getD
            (p.x + (c : Int) + dx).toNat ' ' = '.'
        · rw [if_neg ?hcond]
          case hcond =>
            rintro (ha | hb | hc3 | ⟨h0, hne⟩)
            · exact hA ha
            · exact hB hb
            · exact hC hc3
            · exact hne hdot
          rw [hdot]
          rfl
        · rw [if_pos (Or.inr (Or.inr (Or.inr ⟨hy, hdot⟩))), decide_eq_false hdot]
      · rw [if_neg hy, if_neg ?hcond2]
        case hcond2 =>
          rintro (ha | hb | hc3 | ⟨h0, hne⟩)
          · exact hA ha
          · exact hB hb
          · exact hC hc3
          · exact hy h0

/-- C10 witness: on the default empty board (well-formed) the checked
validation of the freshly spawned `I` piece agrees with the unchecked
one and reports no out-of-range access. -/
theorem valid_position_no_oob_witness :
    bEmpty.WF ∧
    bEmpty.is_valid_position_checked (Tetromino.init ShapeType.I) 0 0 =
      some (bEmpty.is_valid_position (Tetromino.init ShapeType.I) 0 0) :=
  ⟨⟨by decide, by decide⟩,
    (valid_position_no_oob bEmpty (Tetromino.init ShapeType.I) 0 0
      ⟨by decide, by decide⟩).2⟩
